import Mathlib

/-!
Verification development for the HapTree-X phasing pipeline
(`alg.py`, `files.py`, `datagen.py`, `read_class.py`).

The Python sources are shallowly embedded: pure functions become Lean
functions, Python exceptions become an `Except PyErr` result, Python
floats are modelled by real numbers (`ℝ`, with `EReal` where the code
manufactures `-float("inf")`), Python dicts become insertion-ordered
association lists, and file input becomes an explicit list of lines.
Definitions follow the source line by line; the few objects whose
defining module is absent from the sources (the `read` module's `SNP`
ordering and `Read` record) are modelled from the specification and
carry a doc comment saying so.
-/

namespace HapTreeX

deriving instance DecidableEq for Except

/-- Python runtime failures that the embedded code can raise. -/
inductive PyErr where
  | typeError
  | valueError
  | keyError
  | indexError
  | zeroDivisionError
  | assertionError
  deriving Repr, DecidableEq

/-- Python dict with `Int` keys and values, as an insertion-ordered
association list (each key occurs at most once when built by `dinsert`). -/
abbrev PyDict := List (Int × Int)

/-- Python `d[k] = v` on a dict: replace the value in place if the key is
present (keeping its position, as CPython does), otherwise append. -/
def dinsert (d : PyDict) (k v : Int) : PyDict :=
  match d with
  | [] => [(k, v)]
  | (k', v') :: rest =>
    if k' = k then (k, v) :: rest else (k', v') :: dinsert rest k v

/-- Python `d[k]` lookup returning the first binding of `k`. -/
def dlookup (d : PyDict) (k : Int) : Option Int :=
  match d with
  | [] => none
  | (k', v') :: rest => if k' = k then some v' else dlookup rest k

/-- Python `d[k]` as an expression: raises `KeyError` when absent. -/
def dget (d : PyDict) (k : Int) : Except PyErr Int :=
  match dlookup d k with
  | some v => Except.ok v
  | none => Except.error PyErr.keyError

/-- Python `k in d`. -/
def dmem (d : PyDict) (k : Int) : Bool :=
  (dlookup d k).isSome

/-- Keys of a dict in insertion order (Python's iteration order). -/
def dkeys (d : PyDict) : List Int := d.map Prod.fst

/-! ## C1: which SNPs does `parallel` branch on?

`alg.py`, `parallel` (lines 137-150):

    phases = [Phase([{}] * graph.ploidy, 0.0)]
    skipped = True  # set to allow allele permutations
    prev_snp = -1
    for snp in graph.components[root].nodes:
        if allow_allele_permutations:
            phases = branch(...); phases = prune(...)
        else:  # specify beginning to remove allele permutations
            allow_allele_permutations = True
        prev_snp = snp
    return phases[0]

`phase` (lines 153-164) calls `parallel(graph, root, threshold,
pair_threshold, error)`, leaving `allow_allele_permutations` at its
default `True`. -/

/-- Control-flow shadow of the `parallel` loop: the component SNPs, in
order, on which the `branch`/`prune` lines execute.  The boolean argument
is `allow_allele_permutations`; the `else` arm of the loop body sets it to
`True`, so at most the first SNP is ever skipped. -/
def parallelBranchedSnps : List Int → Bool → List Int
  | [], _ => []
  | snp :: rest, allow =>
    if allow then snp :: parallelBranchedSnps rest true
    else parallelBranchedSnps rest true

/-! ## C6: the `[{}] * ploidy` aliasing of haplotype dictionaries

`alg.py` line 137 builds the initial `Phase` as `Phase([{}] * graph.ploidy,
0.0)`: Python allocates ONE empty dict and replicates the reference.  To
express aliasing we model the heap of dict objects explicitly: a `Store`
of dict objects, and a phase's haplotype list as a list of references
(store indices).  The assignment `partial[j][snp] = config[j]` performed
by `branch` (alg.py line 86/99) becomes `writeAllele` through reference
`j`; phases derived without an explicit `copy` keep the same reference
list (alg.py line 93, `extended = partial`). -/

/-- Heap of Python dict objects. -/
abbrev Store := List PyDict

/-- Model of `[{}] * ploidy` (alg.py line 137): one empty dict object is
allocated and `ploidy` references to it are returned. -/
def initHaplotypes (ploidy : Nat) : Store × List Nat :=
  ([[]], List.replicate ploidy 0)

/-- Model of `partial[j][snp] = allele`: write through haplotype reference
`j` into the store.  (An out-of-range `j` would be an `IndexError`; the
store is then returned unchanged.) -/
def writeAllele (st : Store) (refs : List Nat) (j : Nat) (snp allele : Int) :
    Store :=
  match refs.get? j with
  | some r => st.set r (dinsert (st.getD r []) snp allele)
  | none => st

/-- Apply a sequence of `partial[j][snp] = allele` writes. -/
def applyWrites (st : Store) (refs : List Nat) :
    List (Nat × Int × Int) → Store
  | [] => st
  | (j, snp, allele) :: ws => applyWrites (writeAllele st refs j snp allele) refs ws

/-- The dict object haplotype `i` of a phase refers to. -/
def hapView (st : Store) (refs : List Nat) (i : Nat) : Option PyDict :=
  (refs.get? i).bind st.get?

/-- Allele stored at `snp` as seen through haplotype `i`. -/
def hapAllele (st : Store) (refs : List Nat) (i : Nat) (snp : Int) :
    Option Int :=
  (hapView st refs i).bind (fun d => dlookup d snp)

lemma initHaplotypes_refs_get (ploidy i : Nat) (hi : i < ploidy) :
    (initHaplotypes ploidy).2.get? i = some 0 := by
  simp [initHaplotypes, List.get?_eq_getElem?, List.getElem?_replicate, hi]

/-- C6: every haplotype reference of the initial phase points at the one
shared dict object, so after any sequence of writes performed through the
phase (or through any phase derived from it that kept the same reference
list), all haplotypes see the identical dict, and in particular never
disagree on the allele at any SNP. -/
theorem c6_init_haplotypes_share_one_dict
    (ploidy : Nat) (writes : List (Nat × Int × Int)) (i i' : Nat)
    (hi : i < ploidy) (hi' : i' < ploidy) :
    (initHaplotypes ploidy).2.get? i = (initHaplotypes ploidy).2.get? i' ∧
    hapView (applyWrites (initHaplotypes ploidy).1 (initHaplotypes ploidy).2 writes)
        (initHaplotypes ploidy).2 i =
      hapView (applyWrites (initHaplotypes ploidy).1 (initHaplotypes ploidy).2 writes)
        (initHaplotypes ploidy).2 i' ∧
    ∀ snp : Int,
      hapAllele (applyWrites (initHaplotypes ploidy).1 (initHaplotypes ploidy).2 writes)
          (initHaplotypes ploidy).2 i snp =
        hapAllele (applyWrites (initHaplotypes ploidy).1 (initHaplotypes ploidy).2 writes)
          (initHaplotypes ploidy).2 i' snp := by
  have h1 := initHaplotypes_refs_get ploidy i hi
  have h2 := initHaplotypes_refs_get ploidy i' hi'
  refine ⟨h1.trans h2.symm, ?_, ?_⟩
  · unfold hapView
    rw [h1, h2]
  · intro snp
    unfold hapAllele hapView
    rw [h1, h2]

/-- Witness for C6 at ploidy 2 after the write `partial[0][5] = 1`:
haplotype 1 sees the allele written through haplotype 0. -/
theorem c6_init_haplotypes_share_one_dict_witness :
    (0 : Nat) < 2 ∧ (1 : Nat) < 2 ∧
    (hapView (applyWrites (initHaplotypes 2).1 (initHaplotypes 2).2 [(0, 5, 1)])
        (initHaplotypes 2).2 0 =
      hapView (applyWrites (initHaplotypes 2).1 (initHaplotypes 2).2 [(0, 5, 1)])
        (initHaplotypes 2).2 1) :=
  ⟨by decide, by decide,
    (c6_init_haplotypes_share_one_dict 2 [(0, 5, 1)] 0 1 (by decide) (by decide)).2.1⟩

/-- C1 counterexample: on the two-SNP component `[3, 7]`, `parallel` as
invoked by `phase` (with `allow_allele_permutations` left `True`) runs
`branch`/`prune` on BOTH SNPs, not only on the non-first ones. -/
theorem c1_counterexample :
    parallelBranchedSnps [3, 7] true = [3, 7] ∧
      parallelBranchedSnps [3, 7] true ≠ [7] := by
  constructor
  · rfl
  · decide

/-- C1 amended: with `allow_allele_permutations = True` (the default used
by `phase`), `branch` and `prune` are applied to every SNP of the
component's node list, the first included; only an explicit
`allow_allele_permutations = False` skips the first SNP. -/
theorem c1_branch_applied_to_every_snp (nodes : List Int) :
    parallelBranchedSnps nodes true = nodes ∧
      parallelBranchedSnps nodes false = nodes.drop 1 := by
  constructor
  · induction nodes with
    | nil => rfl
    | cons snp rest ih => simp [parallelBranchedSnps, ih]
  · cases nodes with
    | nil => rfl
    | cons snp rest =>
      have h : parallelBranchedSnps rest true = rest := by
        induction rest with
        | nil => rfl
        | cons s r ih => simp [parallelBranchedSnps, ih]
      simp [parallelBranchedSnps, h]

/-! ## The `alg.py` numeric core

Python floats are modelled by `ℝ`; the `-float("inf")` sentinel that
`read_val_tail` assigns makes its result live in `EReal`.  Python's
`x / 0.0` raises `ZeroDivisionError` and `math.log x` raises `ValueError`
for `x ≤ 0`; both are modelled by fallible primitives. -/

/-- Python list indexing `l[i]` (non-negative index): `IndexError` when out
of range. -/
def pyListGet {α : Type} (l : List α) (i : Nat) : Except PyErr α :=
  match l.get? i with
  | some x => Except.ok x
  | none => Except.error PyErr.indexError

/-- Python float division: `ZeroDivisionError` on a zero denominator. -/
noncomputable def pyDiv (x y : ℝ) : Except PyErr ℝ :=
  if y = 0 then Except.error PyErr.zeroDivisionError else Except.ok (x / y)

/-- Python `math.log`: `ValueError` on a non-positive argument. -/
noncomputable def pyLog (x : ℝ) : Except PyErr ℝ :=
  if x ≤ 0 then Except.error PyErr.valueError else Except.ok (Real.log x)

/-- Python `min` over a list of floats: `ValueError` on an empty list. -/
def pyMinR (l : List ℝ) : Except PyErr ℝ :=
  match l with
  | [] => Except.error PyErr.valueError
  | x :: xs => Except.ok (xs.foldl min x)

/-- Python `max` over a list of extended floats: `ValueError` on an empty
list. -/
noncomputable def pyMaxE (l : List EReal) : Except PyErr EReal :=
  match l with
  | [] => Except.error PyErr.valueError
  | x :: xs => Except.ok (xs.foldl max x)

/-- Python `for j in n` where `n` is an `int`: ints are not iterable, so
this raises `TypeError` (alg.py lines 85 and 98, `for j in len(config)`). -/
def pyIterInt (_n : Nat) : Except PyErr (List Nat) :=
  Except.error PyErr.typeError

/-- Model of the missing `read` module's `Read` record.  Modelled from the
spec: a `Read` carries the SNP-to-allele observation dict, a multiplicity
count, a sequential id, a special-SNP anchor and a per-haplotype rate
vector; the aggregator's constructor `Read(dict, count, id)` records the
first three, `special_snp` and `rates` being (re)assigned by
`load_dna_data`. -/
structure Read where
  snps : PyDict
  count : Int
  id : Int
  special_snp : Int
  rates : List ℝ

/-- Constructor call `Read(dict, count, id)` as used by `parse_phases`;
`special_snp`/`rates` hold placeholder initial values until
`load_dna_data` assigns them. -/
def Read.make (snps : PyDict) (count : Int) (id : Int) : Read :=
  ⟨snps, count, id, 0, []⟩

/-- The `Phase` named tuple of alg.py: one allele dict per haplotype plus a
(log-scale) score. -/
structure Phase where
  haplotypes : List PyDict
  score : ℝ

/-- The `CONFIDENCE` constant of alg.py. -/
noncomputable def CONFIDENCE : ℝ := 0.5

/-- The constant `a = (1 - error) / (1 - (2 * error / 3.0))` of
`read_val_tail`. -/
noncomputable def aConst (error : ℝ) : Except PyErr ℝ :=
  pyDiv (1 - error) (1 - 2 * error / 3)

/-- The constant `b = (error / 3.0) / (1 - (2 * error / 3.0))` of
`read_val_tail`. -/
noncomputable def bConst (error : ℝ) : Except PyErr ℝ :=
  pyDiv (error / 3) (1 - 2 * error / 3)

/-- Inner loop of `read_val_tail` for one haplotype `hi`:
`prob = (CONFIDENCE * read.rates[hi]) + (0.5 * (1 - CONFIDENCE))`, then
`prob *= (a if read.snps[snp] == haplo[snp] else b)` for every read SNP
`snp ≤ last_snp`. -/
noncomputable def readProbHap (a b : ℝ) (haplo : PyDict) (read : Read)
    (last_snp : Int) (hi : Nat) : Except PyErr ℝ := do
  let rate ← pyListGet read.rates hi
  read.snps.foldlM
    (fun prob p => do
      if p.1 ≤ last_snp then
        let rv ← dget read.snps p.1
        let hv ← dget haplo p.1
        pure (prob * (if rv = hv then a else b))
      else
        pure prob)
    (CONFIDENCE * rate + 0.5 * (1 - CONFIDENCE))

/-- Middle loop of `read_val_tail` for one read: accumulates
`probs += prob` and
`probs2 += prob / (a if read.snps[last_snp] == haplo[last_snp] else b)`
over `enumerate(haplotypes)`. -/
noncomputable def readProbs (a b : ℝ) (haplotypes : List PyDict)
    (read : Read) (last_snp : Int) : Except PyErr (ℝ × ℝ) := do
  haplotypes.enum.foldlM
    (fun acc hh => do
      let prob ← readProbHap a b hh.2 read last_snp hh.1
      let rv ← dget read.snps last_snp
      let hv ← dget hh.2 last_snp
      let q ← pyDiv prob (if rv = hv then a else b)
      pure (acc.1 + prob, acc.2 + q))
    ((0 : ℝ), (0 : ℝ))

/-- The `probs` accumulator of `read_val_tail` alone (the read's mixture
likelihood `probs = Σ_h prob(h)`), without the `probs2` division — the
quantity C4 speaks about. -/
noncomputable def probsSum (a b : ℝ) (haplotypes : List PyDict)
    (read : Read) (last_snp : Int) : Except PyErr ℝ := do
  haplotypes.enum.foldlM
    (fun acc hh => do
      let prob ← readProbHap a b hh.2 read last_snp hh.1
      pure (acc + prob))
    (0 : ℝ)

/-- Per-read update of `(val, val2)` in `read_val_tail`: on `probs == 0`
the code assigns `val = -float("inf")` (modelled by `⊥ : EReal`);
otherwise `val += log(probs) * read.count` and, unless
`last_snp == read.special_snp`, `val2 += log(probs2) * read.count`. -/
noncomputable def readValStep (a b : ℝ) (haplotypes : List PyDict)
    (last_snp : Int) (acc : EReal × ℝ) (read : Read) :
    Except PyErr (EReal × ℝ) := do
  let pq ← readProbs a b haplotypes read last_snp
  if pq.1 = 0 then
    pure ((⊥ : EReal), acc.2)
  else do
    let lg ← pyLog pq.1
    let val := acc.1 + ((lg * (read.count : ℝ) : ℝ) : EReal)
    if last_snp = read.special_snp then
      pure (val, acc.2)
    else do
      let lg2 ← pyLog pq.2
      pure (val, acc.2 + lg2 * (read.count : ℝ))

/-- Final section of `read_val_tail` (alg.py lines 55-62): the
pair-threshold prior added when `len(haplotypes[0]) > 1` (with the
`assert prev_snp != -1`), and the `return val - val2`. -/
noncomputable def readValTailEnd (haplotypes : List PyDict)
    (pair_threshold : ℝ) (last_snp prev_snp : Int) (vv : EReal × ℝ) :
    Except PyErr EReal := do
  let h0 ← pyListGet haplotypes 0
  let val ←
    if 1 < h0.length then do
      if prev_snp = -1 then
        Except.error PyErr.assertionError
      else do
        let x ← dget h0 last_snp
        let y ← dget h0 prev_snp
        let lg ← pyLog (if x = y then pair_threshold else 1 - pair_threshold)
        pure (vv.1 + (lg : EReal))
    else
      pure vv.1
  pure (val - ((vv.2 : ℝ) : EReal))

/-- The `read_val_tail` function of alg.py (lines 18-62). -/
noncomputable def read_val_tail (haplotypes : List PyDict)
    (pair_threshold error : ℝ) (relevant_reads : List Read)
    (last_snp prev_snp : Int) : Except PyErr EReal := do
  let a ← aConst error
  let b ← bConst error
  let vv ← relevant_reads.foldlM (readValStep a b haplotypes last_snp)
    ((0 : EReal), (0 : ℝ))
  readValTailEnd haplotypes pair_threshold last_snp prev_snp vv

/-- The size/finality-dependent window base of `prune` (alg.py lines
109-119): `1.0` when this is the last SNP, else `0.1`, `0.05`, `0.01` or
`0.001` by list size. -/
noncomputable def pruneThresholdBase (phases : List Phase) (is_last : Bool) : ℝ :=
  if is_last then 1.0
  else if phases.length > 1000 then 0.1
  else if phases.length > 500 then 0.05
  else if phases.length > 100 then 0.01
  else 0.001

/-- Python `random.choice(l)`: `IndexError` on an empty list, otherwise one
of the elements, modelled by an arbitrary selection function `pick`. -/
def pyChoice (pick : List Phase → Phase) (l : List Phase) :
    Except PyErr Phase :=
  if l.isEmpty then Except.error PyErr.indexError else Except.ok (pick l)

/-- The `prune` function of alg.py (lines 104-126), with `random.choice`
modelled by the selection function `pick`. -/
noncomputable def prune (pick : List Phase → Phase) (phases : List Phase)
    (is_last : Bool) : Except PyErr (List Phase) := do
  let threshold := |Real.log (pruneThresholdBase phases is_last)| + 0.0001
  let min_val ← pyMinR (phases.map Phase.score)
  let nphases := phases.filter (fun p => |p.score - min_val| < threshold)
  if is_last then do
    let c ← pyChoice pick nphases
    pure [c]
  else
    pure nphases

/-- The `branch` function of alg.py (lines 65-101), embedded with its two
slips intact: the trailing comma of line 81 makes `configs` a one-element
tuple holding the whole permutation list, and `for j in len(config)`
(lines 85 and 98) iterates over an `int`, which raises `TypeError` as soon
as the loops are entered.  Everything after `pyIterInt` in a loop body is
therefore unreachable; the projection `.toReal` in the final unreachable
score arithmetic restates the float subtraction on the real part. -/
noncomputable def branch (phases : List Phase) (snp prev_snp : Int)
    (relevant_reads : List Read) (threshold pair_threshold error : ℝ)
    (ploidy : Nat) : Except PyErr (List Phase) := do
  let mut new_phases : List Phase := []
  let configs : List (List (List Nat)) := [(List.range ploidy).permutations]
  let mut costs : List EReal := List.replicate configs.length 0
  for p in phases do
    let mut part := p.haplotypes
    let score := p.score
    for ic in configs.enum do
      let config := ic.2
      let js ← pyIterInt config.length
      for j in js do
        -- Unreachable (`js` is never produced): Python would store
        -- `config[j]` — here a whole permutation tuple, which has no `Int`
        -- rendering — so a placeholder stands for the stored value.
        part := part.set j (dinsert (part.getD j []) snp 0)
      let c ← read_val_tail part pair_threshold error relevant_reads snp prev_snp
      costs := costs.set ic.1 c
    let mx ← pyMaxE costs
    let t := (threshold : EReal) + mx
    let mut used := false
    for ic in configs.enum do
      let config := ic.2
      let ci ← pyListGet costs ic.1
      if ci ≥ t then
        let mut extended := part
        if used then
          let d0 ← pyListGet part 0
          let d1 ← pyListGet part 1
          extended := [d0, d1]
        else
          used := true
        let js ← pyIterInt config.length
        for j in js do
          -- Unreachable, as above.
          extended := extended.set j (dinsert (extended.getD j []) snp 0)
        new_phases := new_phases ++ [Phase.mk extended (score - ci.toReal)]
  pure new_phases

/-! ## C2 and C3: `branch` and `prune` -/

lemma foldl_min_le (l : List ℝ) (x : ℝ) :
    l.foldl min x ≤ x ∧ ∀ y ∈ l, l.foldl min x ≤ y := by
  induction l generalizing x with
  | nil => simp
  | cons a as ih =>
    have h := ih (min x a)
    refine ⟨le_trans h.1 (min_le_left _ _), ?_⟩
    intro y hy
    rcases List.mem_cons.mp hy with rfl | hy
    · exact le_trans h.1 (min_le_right _ _)
    · exact h.2 y hy

lemma foldl_min_mem (l : List ℝ) (x : ℝ) :
    l.foldl min x = x ∨ l.foldl min x ∈ l := by
  induction l generalizing x with
  | nil => simp
  | cons a as ih =>
    rw [List.foldl_cons]
    rcases ih (min x a) with h | h
    · rcases le_total x a with hxa | hxa
      · left; rw [h]; exact min_eq_left hxa
      · right; rw [h, min_eq_right hxa]; exact List.mem_cons_self _ _
    · right; exact List.mem_cons_of_mem _ h

lemma pyMinR_spec (scores : List ℝ) (m : ℝ)
    (h : pyMinR scores = Except.ok m) :
    (∀ y ∈ scores, m ≤ y) ∧ m ∈ scores := by
  cases scores with
  | nil => simp [pyMinR] at h
  | cons s ss =>
    simp only [pyMinR, Except.ok.injEq] at h
    subst h
    refine ⟨?_, ?_⟩
    · intro y hy
      rcases List.mem_cons.mp hy with rfl | hy
      · exact (foldl_min_le ss y).1
      · exact (foldl_min_le ss s).2 y hy
    · rcases foldl_min_mem ss s with h | h
      · rw [h]; exact List.mem_cons_self _ _
      · exact List.mem_cons_of_mem _ h

lemma window_pos (c : ℝ) : (0:ℝ) < |Real.log c| + 0.0001 := by
  have := abs_nonneg (Real.log c)
  linarith

lemma prune_eq (pick : List Phase → Phase) (phases : List Phase)
    (is_last : Bool) (m : ℝ)
    (hmin : pyMinR (phases.map Phase.score) = Except.ok m) :
    prune pick phases is_last =
      if is_last then
        (pyChoice pick (phases.filter (fun p =>
          |p.score - m| < |Real.log (pruneThresholdBase phases is_last)| + 0.0001))).bind
          (fun c => Except.ok [c])
      else
        Except.ok (phases.filter (fun p =>
          |p.score - m| < |Real.log (pruneThresholdBase phases is_last)| + 0.0001)) := by
  unfold prune
  rw [hmin]
  cases is_last
  · rfl
  · rfl

/-- C2 (code bug evaluated): `branch` raises `TypeError` on every
non-empty phase list — the trailing comma of alg.py line 81 leaves
`configs` a one-element tuple, and `for j in len(config)` then iterates an
`int` — so no permutation is ever enumerated or scored. -/
theorem c2_branch_raises_typeerror (phases : List Phase) (h : phases ≠ [])
    (snp prev_snp : Int) (relevant_reads : List Read)
    (threshold pair_threshold error : ℝ) (ploidy : Nat) :
    branch phases snp prev_snp relevant_reads threshold pair_threshold error
      ploidy = Except.error PyErr.typeError := by
  cases phases with
  | nil => exact absurd rfl h
  | cons p rest => rfl

/-- Witness for the `branch` failure at the concrete failing input: one
empty two-haplotype phase, ploidy 2. -/
theorem c2_branch_raises_typeerror_witness :
    ([Phase.mk [[], []] 0] ≠ ([] : List Phase)) ∧
    branch [Phase.mk [[], []] 0] 5 3 [] 0 (1/2) 0 2 =
      Except.error PyErr.typeError :=
  ⟨by simp, c2_branch_raises_typeerror [Phase.mk [[], []] 0] (by simp) 5 3 [] 0
    (1/2) 0 2⟩

/-- C3: for a non-empty phase list (minimum score `m`), `prune` keeps
exactly the phases whose score is within `|log w| + 0.0001` of `m`, where
`w` is `1.0` on the final SNP and otherwise `0.1`/`0.05`/`0.01`/`0.001` by
list size; on the final SNP it returns exactly one surviving phase, and a
singleton input is returned unchanged in either mode. -/
theorem c3_prune_keeps_within_window
    (pick : List Phase → Phase) (hpick : ∀ l, l ≠ [] → pick l ∈ l)
    (phases : List Phase) (is_last : Bool) (m : ℝ)
    (hmin : pyMinR (phases.map Phase.score) = Except.ok m) :
    (∀ p ∈ phases, m ≤ p.score) ∧ (∃ p ∈ phases, p.score = m) ∧
    (pruneThresholdBase phases is_last =
      (if is_last = true then (1.0:ℝ) else if 1000 < phases.length then 0.1
       else if 500 < phases.length then 0.05
       else if 100 < phases.length then 0.01 else 0.001)) ∧
    (∀ p : Phase, p ∈ phases.filter (fun p =>
        |p.score - m| < |Real.log (pruneThresholdBase phases is_last)| + 0.0001) ↔
      p ∈ phases ∧
        |p.score - m| < |Real.log (pruneThresholdBase phases is_last)| + 0.0001) ∧
    (is_last = false → prune pick phases is_last =
      Except.ok (phases.filter (fun p =>
        |p.score - m| < |Real.log (pruneThresholdBase phases is_last)| + 0.0001))) ∧
    (is_last = true → ∃ c, prune pick phases is_last = Except.ok [c] ∧
      c ∈ phases.filter (fun p =>
        |p.score - m| < |Real.log (pruneThresholdBase phases is_last)| + 0.0001)) ∧
    (∀ p0, phases = [p0] → prune pick phases is_last = Except.ok [p0]) := by
  have hub := pyMinR_spec _ _ hmin
  have hle : ∀ p ∈ phases, m ≤ p.score := by
    intro p hp
    exact hub.1 _ (List.mem_map_of_mem Phase.score hp)
  have hmem : ∃ p ∈ phases, p.score = m := by
    rcases List.mem_map.mp hub.2 with ⟨p, hp, hps⟩
    exact ⟨p, hp, hps⟩
  have hne : (phases.filter (fun p =>
      |p.score - m| < |Real.log (pruneThresholdBase phases is_last)| + 0.0001)) ≠ [] := by
    rcases hmem with ⟨p, hp, hps⟩
    intro hempty
    have hpmem : p ∈ phases.filter (fun p =>
        |p.score - m| < |Real.log (pruneThresholdBase phases is_last)| + 0.0001) := by
      refine List.mem_filter.mpr ⟨hp, ?_⟩
      simp only [hps, sub_self, abs_zero, decide_eq_true_eq]
      exact window_pos _
    rw [hempty] at hpmem
    exact List.not_mem_nil _ hpmem
  have hch : pyChoice pick (phases.filter (fun p =>
      |p.score - m| < |Real.log (pruneThresholdBase phases is_last)| + 0.0001)) =
      Except.ok (pick (phases.filter (fun p =>
        |p.score - m| < |Real.log (pruneThresholdBase phases is_last)| + 0.0001))) := by
    unfold pyChoice
    rw [if_neg]
    intro hemp
    exact hne (List.isEmpty_iff.mp hemp)
  have hbase : pruneThresholdBase phases is_last =
      (if is_last = true then (1.0:ℝ) else if 1000 < phases.length then 0.1
       else if 500 < phases.length then 0.05
       else if 100 < phases.length then 0.01 else 0.001) := by
    cases is_last <;> simp [pruneThresholdBase]
  have hfalse : is_last = false → prune pick phases is_last =
      Except.ok (phases.filter (fun p =>
        |p.score - m| < |Real.log (pruneThresholdBase phases is_last)| + 0.0001)) := by
    intro hlast
    subst hlast
    rw [prune_eq pick phases false m hmin]
    rfl
  have htrue : is_last = true → ∃ c, prune pick phases is_last = Except.ok [c] ∧
      c ∈ phases.filter (fun p =>
        |p.score - m| < |Real.log (pruneThresholdBase phases is_last)| + 0.0001) := by
    intro hlast
    subst hlast
    refine ⟨pick (phases.filter (fun p =>
      |p.score - m| < |Real.log (pruneThresholdBase phases true)| + 0.0001)), ?_, ?_⟩
    · rw [prune_eq pick phases true m hmin]
      simp only [if_true, hch]
      rfl
    · exact hpick _ hne
  refine ⟨hle, hmem, hbase, ?_, hfalse, htrue, ?_⟩
  · intro p
    rw [List.mem_filter]
    simp only [decide_eq_true_eq]
  · intro p0 hp0
    subst hp0
    have hm : m = p0.score := by
      simpa [pyMinR] using hmin.symm
    have hfilter : [p0].filter (fun p =>
        |p.score - m| < |Real.log (pruneThresholdBase [p0] is_last)| + 0.0001) = [p0] := by
      rw [List.filter_cons]
      rw [if_pos]
      · rfl
      · simp only [hm, sub_self, abs_zero, decide_eq_true_eq]
        exact window_pos _
    cases is_last with
    | false =>
      rw [hfalse rfl, hfilter]
    | true =>
      rcases htrue rfl with ⟨c, hc, hcmem⟩
      rw [hfilter] at hcmem
      rcases List.mem_singleton.mp hcmem with rfl
      exact hc



/-! ## C4: `read_val_tail` at `error = 0` -/

lemma aConst_zero : aConst 0 = Except.ok 1 := by
  unfold aConst pyDiv
  rw [if_neg (by norm_num)]
  norm_num

lemma bConst_zero : bConst 0 = Except.ok 0 := by
  unfold bConst pyDiv
  rw [if_neg (by norm_num)]
  norm_num

lemma readValStep_bot (a b : ℝ) (H : List PyDict) (last : Int)
    (acc : EReal × ℝ) (hbot : acc.1 = ⊥) (r : Read) (res : EReal × ℝ)
    (hok : readValStep a b H last acc r = Except.ok res) : res.1 = ⊥ := by
  unfold readValStep at hok
  cases hpq : readProbs a b H r last with
  | error e => rw [hpq] at hok; simp [bind, Except.bind] at hok
  | ok pq =>
    rw [hpq] at hok
    simp only [bind, Except.bind] at hok
    split at hok
    · simp only [pure, Except.pure, Except.ok.injEq] at hok
      rw [← hok]
    · cases hlg : pyLog pq.1 with
      | error e => rw [hlg] at hok; simp [Except.bind] at hok
      | ok lg =>
        rw [hlg] at hok
        simp only [Except.bind] at hok
        split at hok
        · simp only [pure, Except.pure, Except.ok.injEq] at hok
          rw [← hok]
          simp [hbot]
        · cases hlg2 : pyLog pq.2 with
          | error e => rw [hlg2] at hok; simp [Except.bind] at hok
          | ok lg2 =>
            rw [hlg2] at hok
            simp only [pure, Except.pure, Except.ok.injEq, Except.bind] at hok
            rw [← hok]
            simp [hbot]

lemma foldlM_readValStep_bot (a b : ℝ) (H : List PyDict) (last : Int) :
    ∀ (reads : List Read) (acc : EReal × ℝ), acc.1 = ⊥ →
      ∀ res : EReal × ℝ,
        reads.foldlM (readValStep a b H last) acc = Except.ok res →
        res.1 = ⊥ := by
  intro reads
  induction reads with
  | nil =>
    intro acc hbot res hok
    simp only [List.foldlM_nil, pure, Except.pure, Except.ok.injEq] at hok
    rw [← hok]; exact hbot
  | cons r rest ih =>
    intro acc hbot res hok
    rw [List.foldlM_cons] at hok
    cases hstep : readValStep a b H last acc r with
    | error e => rw [hstep] at hok; simp [bind, Except.bind] at hok
    | ok acc' =>
      rw [hstep] at hok
      simp only [bind, Except.bind] at hok
      exact ih acc' (readValStep_bot a b H last acc hbot r acc' hstep) res hok

lemma foldlM_readValStep_zero (a b : ℝ) (H : List PyDict) (last : Int) :
    ∀ (reads : List Read) (acc : EReal × ℝ),
      (∃ r ∈ reads, ∃ p2 : ℝ, readProbs a b H r last = Except.ok (0, p2)) →
      ∀ res : EReal × ℝ,
        reads.foldlM (readValStep a b H last) acc = Except.ok res →
        res.1 = ⊥ := by
  intro reads
  induction reads with
  | nil =>
    intro acc hzero res hok
    rcases hzero with ⟨r, hr, _⟩
    exact absurd hr (List.not_mem_nil r)
  | cons r rest ih =>
    intro acc hzero res hok
    rw [List.foldlM_cons] at hok
    cases hstep : readValStep a b H last acc r with
    | error e => rw [hstep] at hok; simp [bind, Except.bind] at hok
    | ok acc' =>
      rw [hstep] at hok
      simp only [bind, Except.bind] at hok
      rcases hzero with ⟨r0, hr0, p2, hp2⟩
      rcases List.mem_cons.mp hr0 with rfl | hr0rest
      · -- the zero read is the head: after this step the val is ⊥
        have hbot : acc'.1 = ⊥ := by
          unfold readValStep at hstep
          rw [hp2] at hstep
          simp only [bind, Except.bind] at hstep
          rw [if_pos trivial] at hstep
          simp only [pure, Except.pure, Except.ok.injEq] at hstep
          rw [← hstep]
        exact foldlM_readValStep_bot a b H last rest acc' hbot res hok
      · exact ih acc' ⟨r0, hr0rest, p2, hp2⟩ res hok

lemma readValTailEnd_bot (H : List PyDict) (pt : ℝ) (last prev : Int)
    (vv : EReal × ℝ) (hbot : vv.1 = ⊥) (v : EReal)
    (hok : readValTailEnd H pt last prev vv = Except.ok v) : v = ⊥ := by
  unfold readValTailEnd at hok
  cases hh0 : pyListGet H 0 with
  | error e => rw [hh0] at hok; simp [bind, Except.bind] at hok
  | ok h0 =>
    rw [hh0] at hok
    simp only [bind, Except.bind] at hok
    split at hok
    · split at hok
      · simp [Except.bind] at hok
      · cases hx : dget h0 last with
        | error e => rw [hx] at hok; simp [bind, Except.bind] at hok
        | ok x =>
          rw [hx] at hok
          simp only [bind, Except.bind] at hok
          cases hy : dget h0 prev with
          | error e => rw [hy] at hok; simp [bind, Except.bind] at hok
          | ok y =>
            rw [hy] at hok
            simp only [bind, Except.bind] at hok
            cases hlg : pyLog (if x = y then pt else 1 - pt) with
            | error e => rw [hlg] at hok; simp [bind, Except.bind] at hok
            | ok lg =>
              rw [hlg] at hok
              simp only [pure, Except.pure, Except.bind, Except.ok.injEq] at hok
              rw [← hok, hbot]
              simp [EReal.bot_add, EReal.bot_sub]
    · simp only [pure, Except.pure, Except.bind, Except.ok.injEq] at hok
      rw [← hok, hbot]
      simp [EReal.bot_sub]

/-- Concrete two-haplotype assignment `{0: 0, 1: 0}` used in the C4
instances. -/
def haploBoth : PyDict := [(0, 0), (1, 0)]

/-- A read observing allele 1 at SNPs 0 and 1: it mismatches `haploBoth`
at both SNPs, in particular at the last one. -/
noncomputable def readAllMismatch : Read := ⟨[(0, 1), (1, 1)], 1, 0, 0, [1/2, 1/2]⟩

/-- A read mismatching `haploBoth` at SNP 0 but matching it at the last
SNP 1: its mixture likelihood is 0 yet no division by `b = 0` occurs. -/
noncomputable def readLastMatch : Read := ⟨[(0, 1), (1, 0)], 1, 0, 0, [1/2, 1/2]⟩

/-- C4 counterexample: with `error = 0` there is a relevant read whose
mixture likelihood `probs` is 0 and yet `read_val_tail` raises
`ZeroDivisionError` (the `probs2` update divides `prob` by `b = 0` because
the read mismatches the haplotype at `last_snp`) instead of returning the
negative-infinity sentinel. -/
theorem c4_counterexample :
    probsSum 1 0 [haploBoth, haploBoth] readAllMismatch 1 = Except.ok 0 ∧
    read_val_tail [haploBoth, haploBoth] (1/2) 0 [readAllMismatch] 1 0 =
      Except.error PyErr.zeroDivisionError := by
  constructor
  · simp [probsSum, readAllMismatch, haploBoth, readProbHap, pyListGet, dget,
      dlookup, CONFIDENCE, List.foldlM, bind, Except.bind, pure, Except.pure]
  · simp [read_val_tail, aConst, bConst, pyDiv, readValStep, readProbs,
      readProbHap, readAllMismatch, haploBoth, pyListGet, dget, dlookup,
      CONFIDENCE, List.foldlM, bind, Except.bind, pure, Except.pure]

/-- C4 amended: with `error = 0` the model constants are `a = 1` and
`b = 0`, and whenever some relevant read has mixture likelihood
`probs = 0` AND the evaluation completes without raising (no relevant
read mismatches a haplotype at `last_snp`, which would divide by `b = 0`),
the result is the negative-infinity sentinel. -/
theorem c4_zero_probs_gives_neg_infinity
(haplotypes : List PyDict) (pair_threshold : ℝ)
    (relevant_reads : List Read) (last_snp prev_snp : Int) (v : EReal)
    (hok : read_val_tail haplotypes pair_threshold 0 relevant_reads last_snp
      prev_snp = Except.ok v)
    (hzero : ∃ r ∈ relevant_reads, ∃ p2 : ℝ,
      readProbs 1 0 haplotypes r last_snp = Except.ok (0, p2)) :
    aConst 0 = Except.ok 1 ∧ bConst 0 = Except.ok 0 ∧ v = ⊥ := by
  refine ⟨aConst_zero, bConst_zero, ?_⟩
  unfold read_val_tail at hok
  rw [aConst_zero, bConst_zero] at hok
  simp only [bind, Except.bind] at hok
  cases hvv : relevant_reads.foldlM (readValStep 1 0 haplotypes last_snp)
      ((0 : EReal), (0 : ℝ)) with
  | error e => rw [hvv] at hok; simp at hok
  | ok vv =>
    rw [hvv] at hok
    have hbot := foldlM_readValStep_zero 1 0 haplotypes last_snp
      relevant_reads ((0 : EReal), (0 : ℝ)) hzero vv hvv
    exact readValTailEnd_bot haplotypes pair_threshold last_snp prev_snp vv
      hbot v hok

/-- Witness for C4 amended: the read `readLastMatch` has `probs = 0`, the
evaluation completes, and the score is `-∞`. -/
theorem c4_zero_probs_gives_neg_infinity_witness :
    (read_val_tail [haploBoth, haploBoth] (1/2) 0 [readLastMatch] 1 0 =
      Except.ok ⊥) ∧
    (∃ r ∈ [readLastMatch], ∃ p2 : ℝ,
      readProbs 1 0 [haploBoth, haploBoth] r 1 = Except.ok (0, p2)) ∧
    (aConst 0 = Except.ok 1 ∧ bConst 0 = Except.ok 0 ∧ (⊥ : EReal) = ⊥) := by
  have hzero : readProbs 1 0 [haploBoth, haploBoth] readLastMatch 1 =
      Except.ok (0, 0) := by
    simp [readProbs, readProbHap, readLastMatch, haploBoth, pyListGet, dget,
      dlookup, CONFIDENCE, pyDiv, List.foldlM, bind, Except.bind, pure,
      Except.pure]
  have hok : read_val_tail [haploBoth, haploBoth] (1/2) 0 [readLastMatch] 1 0 =
      Except.ok ⊥ := by
    simp [read_val_tail, aConst, bConst, pyDiv, readValStep, readProbs,
      readProbHap, readLastMatch, haploBoth, pyListGet, dget, dlookup,
      CONFIDENCE, List.foldlM, readValTailEnd, pyLog, bind, Except.bind, pure,
      Except.pure]
    rw [if_neg (by norm_num : ¬ (2:ℝ) ≤ 0)]
  exact ⟨hok, ⟨readLastMatch, by simp, 0, hzero⟩,
    c4_zero_probs_gives_neg_infinity [haploBoth, haploBoth] (1/2)
      [readLastMatch] 1 0 ⊥ hok ⟨readLastMatch, by simp, 0, hzero⟩⟩

/-- Deterministic stand-in selection function for `random.choice` in the
C3 witness: take the head. -/

def pickHead (l : List Phase) : Phase := l.headD (Phase.mk [] 0)

lemma pickHead_mem : ∀ l : List Phase, l ≠ [] → pickHead l ∈ l := by
  intro l hl
  cases l with
  | nil => exact absurd rfl hl
  | cons a as =>
    simp [pickHead]

theorem c3_prune_keeps_within_window_witness :
    (∀ l : List Phase, l ≠ [] → pickHead l ∈ l) ∧
    (pyMinR ([Phase.mk [] 0].map Phase.score) = Except.ok 0) ∧
    prune pickHead [Phase.mk [] 0] true = Except.ok [Phase.mk [] 0] :=
  ⟨pickHead_mem, rfl,
    (c3_prune_keeps_within_window pickHead pickHead_mem [Phase.mk [] 0] true 0
      rfl).2.2.2.2.2.2 (Phase.mk [] 0) rfl⟩

/-! ## The `files.py` / `datagen.py` ingestion pipelines

File input is modelled as the explicit list of the file's lines (without
the trailing newline, as the line iteration of the original Seq-flavoured
sources yields them). -/

/-- Split a character list at every character satisfying `p`, keeping
empty pieces (Python `str.split(sep)` semantics for one-character
separators). -/
def splitChars (p : Char → Bool) : List Char → List (List Char)
  | [] => [[]]
  | c :: cs =>
    match splitChars p cs with
    | [] => [[]]
    | g :: gs => if p c then [] :: g :: gs else (c :: g) :: gs

/-- Python `s.split(sep)` for a one-character separator. -/
def pySplitChar (sep : Char) (s : String) : List String :=
  (splitChars (fun c => c = sep) s.toList).map String.mk

/-- Python `s.replace(a, b)` for one-character patterns. -/
def pyReplaceChar (a b : Char) (s : String) : String :=
  String.mk (s.toList.map (fun c => if c = a then b else c))

/-- Decimal digits to a number; `none` when empty or non-digit. -/
def digitsOf (ds : List Char) : Option Nat :=
  match ds with
  | [] => none
  | _ =>
    ds.foldl
      (fun acc c =>
        match acc with
        | none => none
        | some n => if c.isDigit then some (n * 10 + (c.toNat - 48)) else none)
      (some 0)

/-- Python `str(i)` for a natural number (auxiliary, fuelled by the number
itself so the recursion is structural). -/
def natToStrAux : Nat → Nat → List Char
  | 0, _ => []
  | fuel + 1, n =>
    if n < 10 then [Char.ofNat (48 + n)]
    else natToStrAux fuel (n / 10) ++ [Char.ofNat (48 + n % 10)]

/-- Python `str(i)` for a natural number. -/
def natToStr (n : Nat) : String :=
  String.mk (natToStrAux (n + 1) n)

/-- Lexicographic string comparison by code point (Python `<` on str). -/
def strLt : List Char → List Char → Bool
  | [], [] => false
  | [], _ :: _ => true
  | _ :: _, [] => false
  | a :: as, b :: bs => if a = b then strLt as bs else decide (a < b)

/-- Association-list lookup for the `line_to_snp` dict (`Int` keys, `Nat`
values). -/
def alookupN (l : List (Int × Nat)) (k : Int) : Option Nat :=
  match l with
  | [] => none
  | (k', v') :: rest => if k' = k then some v' else alookupN rest k

/-- Python `d[k] = v` for string-keyed dicts (last write wins, position
kept). -/
def sinsert (d : List (String × String)) (k v : String) :
    List (String × String) :=
  match d with
  | [] => [(k, v)]
  | (k', v') :: rest =>
    if k' = k then (k, v) :: rest else (k', v') :: sinsert rest k v

/-- Lookup in a string-keyed dict. -/
def slookup (d : List (String × String)) (k : String) : Option String :=
  match d with
  | [] => none
  | (k', v') :: rest => if k' = k then some v' else slookup rest k

/-- Python `dict(pairs)`: later bindings of a key overwrite earlier ones. -/
def strDictOf (pairs : List (String × String)) : List (String × String) :=
  pairs.foldl (fun d p => sinsert d p.1 p.2) []

/-- Python `int(s)`: `ValueError` when `s` is not an integer literal
(modelled for optionally-negated decimal literals). -/
def pyIntStr (s : String) : Except PyErr Int :=
  match s.toList with
  | '-' :: ds =>
    match digitsOf ds with
    | some n => Except.ok (-(n : Int))
    | none => Except.error PyErr.valueError
  | ds =>
    match digitsOf ds with
    | some n => Except.ok (n : Int)
    | none => Except.error PyErr.valueError

/-- Python `int(c)` for a single character: `ValueError` unless a digit. -/
def pyIntChar (c : Char) : Except PyErr Int :=
  if c.isDigit then Except.ok ((c.toNat : Int) - 48)
  else Except.error PyErr.valueError

/-- Python `s[i]` for a string: `IndexError` when out of range. -/
def pyStrGet (s : String) (i : Nat) : Except PyErr Char :=
  match s.toList.get? i with
  | some c => Except.ok c
  | none => Except.error PyErr.indexError

/-- Python `l[-1]`: `IndexError` on an empty list. -/
def pyLast {α : Type} (l : List α) : Except PyErr α :=
  match l.getLast? with
  | some x => Except.ok x
  | none => Except.error PyErr.indexError

/-- Python `s.split()` (no argument): split on whitespace runs, dropping
empty pieces. -/
def pySplitWs (s : String) : List String :=
  (splitChars (fun c => c = ' ' ∨ c = '\t' ∨ c = '\n' ∨ c = '\r')
    s.toList).filterMap
    (fun t => if t = [] then none else some (String.mk t))

/-- Model of the missing `read` module's `SNP` record: sequential id,
chromosome, 0-based position, external name, allele symbols. -/
structure SNP where
  id : Int
  chr : String
  pos : Int
  name : String
  alleles : List String
  deriving DecidableEq, Repr

/-- Modelled from the spec: the missing `read` module's `SNP.__lt__` —
SNPs are "Comparable/orderable by (chromosome, position)". -/
def snpLt (s t : SNP) : Bool :=
  strLt s.chr.toList t.chr.toList ∨ (s.chr = t.chr ∧ s.pos < t.pos)

/-- The `VCF` record of files.py: catalog, line-number-to-SNP-index map,
chromosome set (the set modelled as a first-insertion-ordered list). -/
structure VCF where
  snps : List SNP
  line_to_snp : List (Int × Nat)
  chromosomes : List String
  deriving DecidableEq, Repr

/-- Accumulator state of the `parse_vcf` loop. -/
structure VcfState where
  snps : List SNP
  line_to_snp : List (Int × Nat)
  chromosomes : List String
  seen_snps : Int

/-- Python `set.add`. -/
def setAdd (s : List String) (x : String) : List String :=
  if x ∈ s then s else s ++ [x]

/-- Tuple unpack of files.py line 49: split the line on tabs into exactly
ten fields, of which seven are used (`ValueError` on any other arity). -/
def vcfFields (line : String) :
    Except PyErr (String × String × String × String × String × String × String) :=
  match pySplitChar '\t' line with
  | [chr, pos, name, ref, alt, _, _, _, fmt_, sample] =>
    Except.ok (chr, pos, name, ref, alt, fmt_, sample)
  | _ => Except.error PyErr.valueError

/-- Lines 53-57 of files.py: build the `FORMAT`-to-sample dict, read the
`GT` entry (`KeyError` when absent), normalize `|` to `/`, and keep the
single-character alleles whose index occurs in the genotype. -/
def vcfAlleles (ref alt fmt_ sample : String) : Except PyErr (List String) :=
  let fmt := strDictOf ((pySplitChar ':' fmt_).zip (pySplitChar ':' sample))
  match slookup fmt "GT" with
  | none => Except.error PyErr.keyError
  | some gtRaw =>
    let gt := pySplitChar '/' (pyReplaceChar '|' '/' gtRaw)
    let alleles0 := ref :: pySplitChar ',' alt
    Except.ok ((alleles0.enum.filter
      (fun ia => natToStr ia.1 ∈ gt ∧ ia.2.toList.length = 1)).map Prod.snd)

/-- Lines 59-64 of files.py: construct the SNP with sequential id, fail
when it sorts strictly before the previously retained SNP, otherwise
append it and record the line index and chromosome. -/
def vcfPush (st : VcfState) (seen : Int) (chr : String) (posv : Int)
    (name : String) (alleles : List String) : Except PyErr VcfState :=
  let snp : SNP := ⟨(st.snps.length : Int), chr, posv - 1, name, alleles⟩
  match st.snps.getLast? with
  | some prev =>
    if snpLt snp prev then Except.error PyErr.valueError
    else Except.ok ⟨st.snps ++ [snp],
      st.line_to_snp ++ [(seen, st.snps.length)],
      setAdd st.chromosomes chr, seen⟩
  | none =>
    Except.ok ⟨st.snps ++ [snp],
      st.line_to_snp ++ [(seen, st.snps.length)],
      setAdd st.chromosomes chr, seen⟩

/-- Body of the `parse_vcf` loop of files.py (lines 45-64) for one line. -/
def parseVcfLine (st : VcfState) (line : String) : Except PyErr VcfState :=
  match line.toList with
  | [] => Except.error PyErr.indexError
  | c :: _ =>
    if c = '#' then Except.ok st
    else
      let seen := st.seen_snps + 1
      match vcfFields line with
      | Except.error e => Except.error e
      | Except.ok (chr, pos, name, ref, alt, fmt_, sample) =>
        if ref.toList.length ≠ 1 then
          Except.ok { st with seen_snps := seen }
        else
          match vcfAlleles ref alt fmt_ sample with
          | Except.error e => Except.error e
          | Except.ok alleles =>
            if alleles.length > 1 then
              match pyIntStr pos with
              | Except.error e => Except.error e
              | Except.ok posv => vcfPush st seen chr posv name alleles
            else
              Except.ok { st with seen_snps := seen }

/-- The `parse_vcf` function of files.py (lines 21-66), over the file's
lines. -/
def parse_vcf (lines : List String) : Except PyErr VCF := do
  let st ← lines.foldlM parseVcfLine ⟨[], [], [], 0⟩
  pure ⟨st.snps, st.line_to_snp, st.chromosomes⟩

/-! ### `parse_gtf` (files.py lines 69-97) -/

/-- The `Gene` record of the missing `rna` module, as constructed by
`parse_gtf`: id, name, chromosome, interval, strand sign, exon
(start, length) pairs. -/
structure Gene where
  id : Nat
  name : String
  chr : String
  interval : Int × Int
  sign : String
  exons : List (Int × Int)
  deriving DecidableEq, Repr

/-- Python `f.split(" ", 1)` followed by the two-name unpack of
`parse_f`: `ValueError` when there is no space. -/
def pySplit1 (f : String) : Except PyErr (String × String) :=
  match pySplitChar ' ' f with
  | [] => Except.error PyErr.valueError
  | [_] => Except.error PyErr.valueError
  | x :: rest => Except.ok (x, String.intercalate " " rest)

/-- The `parse_f` helper of `parse_gtf`: split an attribute into key and
value, stripping symmetric double quotes (`y[0] == y[-1] == '"'`; an empty
value makes `y[0]` an `IndexError`). -/
def parse_f (f : String) : Except PyErr (String × String) := do
  let xy ← pySplit1 f
  match xy.2.toList with
  | [] => Except.error PyErr.indexError
  | c :: rest =>
    if c = '"' ∧ (c :: rest).getLast (by simp) = '"' then
      Except.ok (xy.1, String.mk (c :: rest).dropLast.tail)
    else
      Except.ok (xy.1, xy.2)

/-- Split on the two-character separator `"; "` (structural two-character
lookahead). -/
def splitSemiSpace : List Char → List (List Char)
  | [] => [[]]
  | [c] => [[c]]
  | c1 :: c2 :: cs =>
    if c1 = ';' ∧ c2 = ' ' then [] :: splitSemiSpace cs
    else
      match splitSemiSpace (c2 :: cs) with
      | [] => [[c1]]
      | g :: gs => (c1 :: g) :: gs

/-- Build the attribute dict `dict(parse_f(f) for f in _info.split("; "))`. -/
def gtfInfoDict (info : String) : Except PyErr (List (String × String)) := do
  let pairs ← ((splitSemiSpace info.toList).map String.mk).mapM parse_f
  pure (strDictOf pairs)

/-- Inner exon loop of `parse_gtf` (lines 88-92): advance `i` collecting
`exon` rows until the next `transcript` row; returns the new `i` and the
exon list. -/
def exonScan (b : List (List String)) (i : Nat) (exons : List (Int × Int)) :
    Except PyErr (Nat × List (Int × Int)) :=
  if h : i < b.length then
    match pyListGet (b.get ⟨i, h⟩) 2 with
    | Except.error e => Except.error e
    | Except.ok feat =>
      if feat = "transcript" then Except.ok (i, exons)
      else if feat = "exon" then
        match pyListGet (b.get ⟨i, h⟩) 3, pyListGet (b.get ⟨i, h⟩) 4 with
        | Except.ok s3, Except.ok s4 =>
          match pyIntStr s3, pyIntStr s4 with
          | Except.ok es, Except.ok ee =>
            exonScan b (i + 1) (exons ++ [(es, ee - es + 1)])
          | Except.error e, _ => Except.error e
          | _, Except.error e => Except.error e
        | Except.error e, _ => Except.error e
        | _, Except.error e => Except.error e
      else exonScan b (i + 1) exons
  else Except.ok (i, exons)
termination_by b.length - i

/-- Outer `while i < len(b)` loop of `parse_gtf` (lines 77-97), with an
explicit fuel so that the non-terminating `continue` path (line 83, taken
without incrementing `i`) is observable: `none` means the fuel ran out. -/
def parseGtfLoop (b : List (List String)) (chroms : List String) :
    Nat → Nat → Nat → List Gene → Option (Except PyErr (List Gene))
  | 0, _, _, _ => none
  | fuel + 1, gi, i, acc =>
    if h : i < b.length then
      match pyListGet (b.get ⟨i, h⟩) 2 with
      | Except.error e => some (Except.error e)
      | Except.ok feat =>
        if feat = "transcript" then
          match pyListGet (b.get ⟨i, h⟩) 0, pyListGet (b.get ⟨i, h⟩) 3,
              pyListGet (b.get ⟨i, h⟩) 4, pyListGet (b.get ⟨i, h⟩) 6,
              pyListGet (b.get ⟨i, h⟩) 8 with
          | Except.ok chr, Except.ok s3, Except.ok s4, Except.ok sign,
              Except.ok info_ =>
            match pyIntStr s3, pyIntStr s4 with
            | Except.ok v3, Except.ok v4 =>
              if chr ∉ chroms then
                -- the `continue` of line 83: `i` is NOT incremented
                parseGtfLoop b chroms fuel gi i acc
              else
                match gtfInfoDict info_ with
                | Except.error e => some (Except.error e)
                | Except.ok info =>
                  match slookup info "transcript_id" with
                  | none => some (Except.error PyErr.keyError)
                  | some tid =>
                    let name := (slookup info "gene_name").getD tid
                    match exonScan b (i + 1) [] with
                    | Except.error e => some (Except.error e)
                    | Except.ok ie =>
                      parseGtfLoop b chroms fuel (gi + 1) ie.1
                        (acc ++ [⟨gi, name, chr, (v3, v4), sign, ie.2⟩])
            | Except.error e, _ => some (Except.error e)
            | _, Except.error e => some (Except.error e)
          | _, _, _, _, _ => some (Except.error PyErr.indexError)
        else
          parseGtfLoop b chroms fuel gi (i + 1) acc
    else
      some (Except.ok acc)

/-- Row preprocessing of `parse_gtf` line 70: keep non-`#` lines, strip
the last two characters, split on tabs. -/
def gtfRows (lines : List String) : List (List String) :=
  (lines.filter (fun a => a.toList.headD ' ' ≠ '#')).map
    (fun a => pySplitChar '\t' (String.mk (a.toList.dropLast.dropLast)))

/-- The `parse_gtf` generator of files.py, run to a list under the given
fuel (`none` when the loop does not finish within the fuel). -/
def parse_gtf (lines : List String) (chroms : List String) (fuel : Nat) :
    Option (Except PyErr (List Gene)) :=
  parseGtfLoop (gtfRows lines) chroms fuel 0 0 []

/-! ### The two `parse_fragmat` implementations

files.py lines 212-243 and datagen.py lines 174-205 are identical except
for the first component of each appended observation: files.py appends
`snp.id` (the resolved catalog SNP's id), datagen.py appends `idx` (the
running raw fragment index). -/

/-- The `QUALITY_CUTOFF` constant. -/
def QUALITY_CUTOFF : Nat := 10

/-- An allele observation `(snp_id_or_idx, allele_index, quality_char)`. -/
abbrev Obs := Int × Int × Char

/-- Inner `for allele in frag[i + 1]` loop of files.py `parse_fragmat`
(lines 234-242): per character, skip unknown indices, resolve the SNP,
validate the allele, append `(snp.id, int(allele), qual[len(alleles)])`
and increment `idx`. -/
def fragCharsFiles (vcf : VCF) (qual : String) :
    List Char → Int → List Obs → Except PyErr (List Obs × Int)
  | [], idx, acc => Except.ok (acc, idx)
  | c :: cs, idx, acc =>
    match alookupN vcf.line_to_snp idx with
    | none => fragCharsFiles vcf qual cs idx acc
    | some j =>
      match pyListGet vcf.snps j with
      | Except.error e => Except.error e
      | Except.ok snp =>
        match pyIntChar c with
        | Except.error e => Except.error e
        | Except.ok av =>
          if ¬ (0 ≤ av ∧ av < (snp.alleles.length : Int)) then
            Except.error PyErr.valueError
          else
            match pyStrGet qual acc.length with
            | Except.error e => Except.error e
            | Except.ok q =>
              fragCharsFiles vcf qual cs (idx + 1) (acc ++ [(snp.id, av, q)])

/-- Same loop in datagen.py `parse_fragmat` (lines 196-204), which appends
`idx` instead of `snp.id`. -/
def fragCharsDatagen (vcf : VCF) (qual : String) :
    List Char → Int → List Obs → Except PyErr (List Obs × Int)
  | [], idx, acc => Except.ok (acc, idx)
  | c :: cs, idx, acc =>
    match alookupN vcf.line_to_snp idx with
    | none => fragCharsDatagen vcf qual cs idx acc
    | some j =>
      match pyListGet vcf.snps j with
      | Except.error e => Except.error e
      | Except.ok snp =>
        match pyIntChar c with
        | Except.error e => Except.error e
        | Except.ok av =>
          if ¬ (0 ≤ av ∧ av < (snp.alleles.length : Int)) then
            Except.error PyErr.valueError
          else
            match pyStrGet qual acc.length with
            | Except.error e => Except.error e
            | Except.ok q =>
              fragCharsDatagen vcf qual cs (idx + 1) (acc ++ [(idx, av, q)])

/-- The `for i in range(0, len(frag), 2)` loop of files.py
`parse_fragmat`: take tokens pairwise (`frag[i]`, `frag[i + 1]`). -/
def fragPairsFiles (vcf : VCF) (qual : String) :
    List String → List Obs → Except PyErr (List Obs)
  | [], acc => Except.ok acc
  | [_], _ => Except.error PyErr.indexError
  | tIdx :: tAll :: rest, acc =>
    match pyIntStr tIdx with
    | Except.error e => Except.error e
    | Except.ok idx =>
      match fragCharsFiles vcf qual tAll.toList idx acc with
      | Except.error e => Except.error e
      | Except.ok ai => fragPairsFiles vcf qual rest ai.1

/-- Same pairwise loop for datagen.py. -/
def fragPairsDatagen (vcf : VCF) (qual : String) :
    List String → List Obs → Except PyErr (List Obs)
  | [], acc => Except.ok acc
  | [_], _ => Except.error PyErr.indexError
  | tIdx :: tAll :: rest, acc =>
    match pyIntStr tIdx with
    | Except.error e => Except.error e
    | Except.ok idx =>
      match fragCharsDatagen vcf qual tAll.toList idx acc with
      | Except.error e => Except.error e
      | Except.ok ai => fragPairsDatagen vcf qual rest ai.1

/-- One line of files.py `parse_fragmat` (lines 223-243): tokenize, peel
off name and quality string, check evenness, apply the quality cutoff
(`none` = line skipped), then collect the observations. -/
def parseFragLineFiles (vcf : VCF) (line : String) :
    Except PyErr (Option (String × List Obs)) := do
  let frag := pySplitWs line
  let name ← pyListGet frag 1
  let qual ← pyLast frag
  let frag2 := (frag.drop 2).dropLast
  if frag2.length % 2 = 1 then
    Except.error PyErr.valueError
  else if qual.toList.length = 1 ∧ (qual.toList.headD ' ').toNat < QUALITY_CUTOFF then
    Except.ok none
  else do
    let alleles ← fragPairsFiles vcf qual frag2 []
    Except.ok (some (name, alleles))

/-- One line of datagen.py `parse_fragmat` (lines 185-205). -/
def parseFragLineDatagen (vcf : VCF) (line : String) :
    Except PyErr (Option (String × List Obs)) := do
  let frag := pySplitWs line
  let name ← pyListGet frag 1
  let qual ← pyLast frag
  let frag2 := (frag.drop 2).dropLast
  if frag2.length % 2 = 1 then
    Except.error PyErr.valueError
  else if qual.toList.length = 1 ∧ (qual.toList.headD ' ').toNat < QUALITY_CUTOFF then
    Except.ok none
  else do
    let alleles ← fragPairsDatagen vcf qual frag2 []
    Except.ok (some (name, alleles))

/-- The files.py `parse_fragmat` generator over a whole file (the unused
`skip_single` parameter is kept from the source signature). -/
def parseFragmatFiles (vcf : VCF) (lines : List String) (_skip_single : Bool) :
    Except PyErr (List (String × List Obs)) :=
  lines.foldlM
    (fun acc line => do
      match ← parseFragLineFiles vcf line with
      | none => pure acc
      | some nr => pure (acc ++ [nr]))
    []

/-- The datagen.py `parse_fragmat` generator over a whole file. -/
def parseFragmatDatagen (vcf : VCF) (lines : List String) (_skip_single : Bool) :
    Except PyErr (List (String × List Obs)) :=
  lines.foldlM
    (fun acc line => do
      match ← parseFragLineDatagen vcf line with
      | none => pure acc
      | some nr => pure (acc ++ [nr]))
    []

/-! ### `parse_phases` deduplication (files.py lines 246-270) -/

/-- The dedup key of an observation list: `tuple((s, a) for s, a, _ in r)`
— the ORDER-SENSITIVE tuple of `(snp_id, allele_index)` pairs. -/
def keyOf (r : List Obs) : List (Int × Int) :=
  r.map (fun o => (o.1, o.2.1))

/-- One step of the `read_counter` accumulation: first occurrence starts
at count 1, later occurrences increment in place. -/
def bumpKey (ctr : List (List (Int × Int) × Int)) (k : List (Int × Int)) :
    List (List (Int × Int) × Int) :=
  match ctr with
  | [] => [(k, 1)]
  | (k', c) :: rest =>
    if k' = k then (k', c + 1) :: rest else (k', c) :: bumpKey rest k

/-- The dict comprehension `{snp_id: snp_a for snp_id, snp_a in tup}`. -/
def dictOfPairs (tup : List (Int × Int)) : PyDict :=
  tup.foldl (fun d p => dinsert d p.1 p.2) []

/-- The dedup-and-emit stage of `parse_phases` (lines 260-270): count the
observation lists by key in first-seen order, then emit
`Read({...}, count, i)` with sequential ids. -/
def dedupReads (reads : List (List Obs)) : List Read :=
  let counter := reads.foldl (fun ctr r => bumpKey ctr (keyOf r)) []
  counter.enum.map (fun ic => Read.make (dictOfPairs ic.2.1) ic.2.2 (ic.1 : Int))

/-- The `parse_phases` function of files.py (lines 246-270): gather the
observation lists of all fragment files (dropping reads covering at most
one SNP when `skip_single`), then deduplicate. -/
def parse_phases (vcf : VCF) (files : List (List String)) (skip_single : Bool) :
    Except PyErr (List Read) := do
  let reads ← files.foldlM
    (fun acc lines => do
      let rs ← parseFragmatFiles vcf lines skip_single
      pure (acc ++ (rs.map Prod.snd).filter
        (fun a => ¬ (skip_single = true ∧ a.length ≤ 1))))
    []
  pure (dedupReads reads)

/-! ### `load_dna_data` (files.py lines 296-309) -/

/-- Python `sorted(r.snps)`: the dict's keys in ascending order. -/
def sortedKeys (d : PyDict) : List Int :=
  List.insertionSort (· ≤ ·) (dkeys d)

/-- The per-read mutation of `load_dna_data` (lines 305-307):
`r.special_snp = sorted(r.snps)[1]` and `r.rates = [0.5, 0.5]`. -/
noncomputable def setSpecialAndRates (r : Read) : Except PyErr Read := do
  let s ← pyListGet (sortedKeys r.snps) 1
  pure { r with special_snp := s, rates := [0.5, 0.5] }

/-- The `for r in reads` loop of `load_dna_data` (lines 305-307): apply
the per-read mutation to every read, propagating the first failure. -/
noncomputable def setAllSpecial : List Read → Except PyErr (List Read)
  | [] => Except.ok []
  | r :: rs => do
    let r' ← setSpecialAndRates r
    let rest ← setAllSpecial rs
    pure (r' :: rest)

/-- The `load_dna_data` function of files.py (lines 296-309), returning
the processed read set that is handed to the (missing) `Graph`
constructor. -/
noncomputable def load_dna_data (vcf : VCF) (files : List (List String))
    (rna_reads : Option (List Read)) : Except PyErr (List Read) := do
  let reads ← parse_phases vcf files true
  let reads := reads ++ (match rna_reads with | some rr => rr | none => [])
  setAllSpecial reads

/-! ## C9: `parse_gtf` does not terminate on skipped chromosomes -/

/-- A GTF transcript row on chromosome `chr2` (the two trailing characters
are stripped by the row preprocessing). -/
def gtfBadLine : String := "chr2\tsrc\ttranscript\t1\t2\t.\t+\t.\tgene_id \"g\"ZZ"

lemma gtf_step (n gi : Nat) (acc : List Gene) :
    parseGtfLoop (gtfRows [gtfBadLine]) ["chr1"] (n + 1) gi 0 acc =
      parseGtfLoop (gtfRows [gtfBadLine]) ["chr1"] n gi 0 acc := rfl

/-- C9 (code bug evaluated): on a transcript row whose chromosome is not
in the supplied set, the `continue` of files.py line 83 re-enters the loop
without incrementing `i`, so `parse_gtf` never terminates — no fuel
suffices. -/
theorem c9_gtf_infinite_loop (fuel : Nat) :
    parse_gtf [gtfBadLine] ["chr1"] fuel = none := by
  unfold parse_gtf
  induction fuel with
  | zero => rfl
  | succ n ih => rw [gtf_step]; exact ih

/-! ## C7: `parse_vcf` ordering check -/


lemma vcfPush_snps (st : VcfState) (seen : Int) (chr : String) (posv : Int)
    (name : String) (alleles : List String) (st' : VcfState)
    (hok : vcfPush st seen chr posv name alleles = Except.ok st') :
    ∃ snp : SNP, st'.snps = st.snps ++ [snp] ∧ snp.id = (st.snps.length : Int) ∧
      (∀ prev, st.snps.getLast? = some prev → snpLt snp prev = false) := by
  unfold vcfPush at hok
  dsimp only at hok
  split at hok
  · rename_i prev hlast
    split at hok
    · exact absurd hok (by simp)
    · rename_i hlt
      simp only [Except.ok.injEq] at hok
      refine ⟨⟨(st.snps.length : Int), chr, posv - 1, name, alleles⟩, ?_, rfl, ?_⟩
      · rw [← hok]
      · intro p hp
        rw [hlast] at hp
        cases hp
        simpa using hlt
  · rename_i hlast
    simp only [Except.ok.injEq] at hok
    refine ⟨⟨(st.snps.length : Int), chr, posv - 1, name, alleles⟩, ?_, rfl, ?_⟩
    · rw [← hok]
    · intro p hp
      rw [hlast] at hp
      cases hp

lemma parseVcfLine_snps (st : VcfState) (line : String) (st' : VcfState)
    (hok : parseVcfLine st line = Except.ok st') :
    st'.snps = st.snps ∨
      ∃ snp : SNP, st'.snps = st.snps ++ [snp] ∧ snp.id = (st.snps.length : Int) ∧
        (∀ prev, st.snps.getLast? = some prev → snpLt snp prev = false) := by
  unfold parseVcfLine at hok
  rcases htl : line.toList with _ | ⟨c, cs⟩ <;> rw [htl] at hok
  · exact absurd hok (by simp)
  · simp only at hok
    by_cases hc : c = '#'
    · simp only [hc, if_pos] at hok
      simp only [if_true, Except.ok.injEq] at hok
      left; rw [← hok]
    · rw [if_neg hc] at hok
      cases hf : vcfFields line with
      | error e => rw [hf] at hok; exact absurd hok (by simp)
      | ok fields =>
        rw [hf] at hok
        obtain ⟨chr, pos, name, ref, alt, fmt_, sample⟩ := fields
        simp only at hok
        by_cases hr : ref.toList.length ≠ 1
        · rw [if_pos hr] at hok
          simp only [Except.ok.injEq] at hok
          left; rw [← hok]
        · rw [if_neg hr] at hok
          cases ha : vcfAlleles ref alt fmt_ sample with
          | error e => rw [ha] at hok; exact absurd hok (by simp)
          | ok alleles =>
            rw [ha] at hok
            dsimp only at hok
            by_cases hl : alleles.length > 1
            · rw [if_pos hl] at hok
              cases hp : pyIntStr pos with
              | error e => rw [hp] at hok; exact absurd hok (by simp)
              | ok posv =>
                rw [hp] at hok
                dsimp only at hok
                right
                exact vcfPush_snps st (st.seen_snps + 1) chr posv name alleles st' hok
            · rw [if_neg hl] at hok
              simp only [Except.ok.injEq] at hok
              left; rw [← hok]


def vcfLineHet : String := "chr1\t100\t.\tA\tC\t.\t.\t.\tGT\t0/1"

def vcfLineLow : String := "chr1\t50\t.\tA\tC\t.\t.\t.\tGT\t0/1"

def VcfSorted (snps : List SNP) : Prop :=
  (∀ (i : Nat) (s : SNP), snps[i]? = some s → s.id = (i : Int)) ∧
  (∀ (i : Nat) (s t : SNP), snps[i]? = some s → snps[i + 1]? = some t →
    snpLt t s = false)

lemma vcfSorted_append (snps : List SNP) (snp : SNP) (hinv : VcfSorted snps)
    (hid : snp.id = (snps.length : Int))
    (hlast : ∀ prev, snps.getLast? = some prev → snpLt snp prev = false) :
    VcfSorted (snps ++ [snp]) := by
  constructor
  · intro i s hget
    by_cases hi : i < snps.length
    · rw [List.getElem?_append_left hi] at hget
      exact hinv.1 i s hget
    · have hge := Nat.le_of_not_lt hi
      rcases Nat.eq_or_lt_of_le hge with heq | hlt
      · have hsnp : (snps ++ [snp])[i]? = some snp := by
          rw [← heq]
          exact List.getElem?_concat_length snps snp
        rw [hsnp] at hget
        injection hget with h
        rw [← h, hid, heq]
      · rw [List.getElem?_append_right hge] at hget
        rw [List.getElem?_eq_none (by simp; omega)] at hget
        cases hget
  · intro i s t hs ht
    by_cases hi : i + 1 < snps.length
    · rw [List.getElem?_append_left hi] at ht
      rw [List.getElem?_append_left (by omega)] at hs
      exact hinv.2 i s t hs ht
    · have hge := Nat.le_of_not_lt hi
      rcases Nat.eq_or_lt_of_le hge with heq | hlt
      · have hsnp : (snps ++ [snp])[i + 1]? = some snp := by
          rw [← heq]
          exact List.getElem?_concat_length snps snp
        rw [hsnp] at ht
        injection ht with h
        have hi' : i < snps.length := by omega
        rw [List.getElem?_append_left hi'] at hs
        have hlastS : snps.getLast? = some s := by
          have hli : snps.length - 1 = i := by omega
          rw [List.getLast?_eq_getElem?, hli, hs]
        rw [← h]
        exact hlast s hlastS
      · rw [List.getElem?_append_right (by omega)] at ht
        rw [List.getElem?_eq_none (by simp; omega)] at ht
        cases ht

lemma parse_vcf_fold_inv :
    ∀ (lines : List String) (st st' : VcfState), VcfSorted st.snps →
      lines.foldlM parseVcfLine st = Except.ok st' → VcfSorted st'.snps := by
  intro lines
  induction lines with
  | nil =>
    intro st st' hinv hok
    simp only [List.foldlM_nil, pure, Except.pure, Except.ok.injEq] at hok
    rw [← hok]
    exact hinv
  | cons line rest ih =>
    intro st st' hinv hok
    rw [List.foldlM_cons] at hok
    cases hstep : parseVcfLine st line with
    | error e => rw [hstep] at hok; simp [bind, Except.bind] at hok
    | ok st1 =>
      rw [hstep] at hok
      simp only [bind, Except.bind] at hok
      refine ih st1 st' ?_ hok
      rcases parseVcfLine_snps st line st1 hstep with hsame | ⟨snp, happ, hid, hl⟩
      · rw [hsame]; exact hinv
      · rw [happ]; exact vcfSorted_append st.snps snp hinv hid hl

/-- C7 amended: a successfully parsed catalog has sequential ids and no
retained SNP sorting strictly before its predecessor — equal SNPs are
retained, and a strictly-smaller SNP (second conjunct, concrete input
with position 50 after 100) aborts parsing with the Invalid-Input error. -/
theorem c7_parse_vcf_monotone (lines : List String) (vcf : VCF)
    (hok : parse_vcf lines = Except.ok vcf) :
    (∀ (i : Nat) (s : SNP), vcf.snps[i]? = some s → s.id = (i : Int)) ∧
    (∀ (i : Nat) (s t : SNP), vcf.snps[i]? = some s →
      vcf.snps[i + 1]? = some t → snpLt t s = false) ∧
    parse_vcf [vcfLineHet, vcfLineLow] = Except.error PyErr.valueError := by
  have hmain : VcfSorted vcf.snps := by
    unfold parse_vcf at hok
    cases hst : List.foldlM parseVcfLine ⟨[], [], [], 0⟩ lines with
    | error e => rw [hst] at hok; simp [bind, Except.bind] at hok
    | ok st =>
      rw [hst] at hok
      simp only [bind, Except.bind, pure, Except.pure, Except.ok.injEq] at hok
      have := parse_vcf_fold_inv lines ⟨[], [], [], 0⟩ st
        (by
          constructor
          · intro i s hget
            simp at hget
          · intro i s t hs ht
            simp at hs) hst
      rw [← hok]
      exact this
  exact ⟨hmain.1, hmain.2, by decide⟩

/-- C7 counterexample: two identical retained SNPs (same chromosome and
position); the second does not sort after the first, yet parsing succeeds
and retains both — comparing equal does not abort. -/
theorem c7_counterexample :
    parse_vcf [vcfLineHet, vcfLineHet] =
      Except.ok ⟨[⟨0, "chr1", 99, ".", ["A", "C"]⟩,
        ⟨1, "chr1", 99, ".", ["A", "C"]⟩], [(1, 0), (2, 1)], ["chr1"]⟩ ∧
    snpLt ⟨0, "chr1", 99, ".", ["A", "C"]⟩ ⟨1, "chr1", 99, ".", ["A", "C"]⟩ =
      false := by
  constructor
  · decide
  · decide

/-- Witness for C7 amended at a concrete one-line catalog. -/
theorem c7_parse_vcf_monotone_witness :
    (parse_vcf [vcfLineHet] =
      Except.ok ⟨[⟨0, "chr1", 99, ".", ["A", "C"]⟩], [(1, 0)], ["chr1"]⟩) ∧
    (∀ (i : Nat) (s : SNP),
      (VCF.mk [⟨0, "chr1", 99, ".", ["A", "C"]⟩] [(1, 0)] ["chr1"]).snps[i]? =
        some s → s.id = (i : Int)) :=
  ⟨by decide,
    (c7_parse_vcf_monotone [vcfLineHet]
      ⟨[⟨0, "chr1", 99, ".", ["A", "C"]⟩], [(1, 0)], ["chr1"]⟩ (by decide)).1⟩

/-! ## C8: the two `parse_fragmat` implementations -/


lemma fragChars_eq (vcf : VCF)
    (hid : ∀ (k : Int) (j : Nat), alookupN vcf.line_to_snp k = some j →
      ∀ snp, vcf.snps.get? j = some snp → snp.id = k)
    (qual : String) :
    ∀ (cs : List Char) (idx : Int) (acc : List Obs),
      fragCharsFiles vcf qual cs idx acc = fragCharsDatagen vcf qual cs idx acc := by
  intro cs
  induction cs with
  | nil => intro idx acc; rfl
  | cons c cs ih =>
    intro idx acc
    simp only [fragCharsFiles, fragCharsDatagen]
    cases halk : alookupN vcf.line_to_snp idx with
    | none => dsimp only; exact ih idx acc
    | some j =>
      dsimp only
      cases hg : pyListGet vcf.snps j with
      | error e => rfl
      | ok snp =>
        dsimp only
        have hsnp : vcf.snps.get? j = some snp := by
          unfold pyListGet at hg
          cases hj : vcf.snps.get? j with
          | none => rw [hj] at hg; cases hg
          | some x => rw [hj] at hg; cases hg; rfl
        have hid' : snp.id = idx := hid idx j halk snp hsnp
        cases hc : pyIntChar c with
        | error e => rfl
        | ok av =>
          dsimp only
          by_cases hrange : ¬ (0 ≤ av ∧ av < (snp.alleles.length : Int))
          · rw [if_pos hrange, if_pos hrange]
          · rw [if_neg hrange, if_neg hrange]
            cases hq : pyStrGet qual acc.length with
            | error e => rfl
            | ok q =>
              dsimp only
              rw [hid']
              exact ih (idx + 1) (acc ++ [(idx, av, q)])

lemma fragPairs_eq (vcf : VCF)
    (hid : ∀ (k : Int) (j : Nat), alookupN vcf.line_to_snp k = some j →
      ∀ snp, vcf.snps.get? j = some snp → snp.id = k)
    (qual : String) :
    ∀ (toks : List String) (acc : List Obs),
      fragPairsFiles vcf qual toks acc = fragPairsDatagen vcf qual toks acc
  | [], _ => rfl
  | [_], _ => rfl
  | tIdx :: tAll :: rest, acc => by
    simp only [fragPairsFiles, fragPairsDatagen]
    cases hp : pyIntStr tIdx with
    | error e => rfl
    | ok idx =>
      dsimp only
      rw [fragChars_eq vcf hid qual tAll.toList idx acc]
      cases hc : fragCharsDatagen vcf qual tAll.toList idx acc with
      | error e => rfl
      | ok ai => dsimp only; exact fragPairs_eq vcf hid qual rest ai.1

lemma fragLine_eq (vcf : VCF)
    (hid : ∀ (k : Int) (j : Nat), alookupN vcf.line_to_snp k = some j →
      ∀ snp, vcf.snps.get? j = some snp → snp.id = k)
    (line : String) :
    parseFragLineFiles vcf line = parseFragLineDatagen vcf line := by
  unfold parseFragLineFiles parseFragLineDatagen
  simp only [fragPairs_eq vcf hid]

/-- C8 amended: the two `parse_fragmat` implementations agree exactly on
catalogs whose `line_to_snp` map sends each line number to a SNP whose id
equals that line number; in general files.py emits the resolved `snp.id`
while datagen.py emits the raw running index `idx`. -/
theorem c8_parse_fragmat_agree_on_aligned_ids (vcf : VCF)
    (hid : ∀ (k : Int) (j : Nat), alookupN vcf.line_to_snp k = some j →
      ∀ snp, vcf.snps.get? j = some snp → snp.id = k)
    (lines : List String) (skip_single : Bool) :
    parseFragmatFiles vcf lines skip_single =
      parseFragmatDatagen vcf lines skip_single := by
  unfold parseFragmatFiles parseFragmatDatagen
  simp only [fragLine_eq vcf hid]


/-- Catalog whose line-to-SNP map sends fragment index 5 to the SNP with
id 0, separating the two `parse_fragmat` outputs. -/
def vcfShifted : VCF := ⟨[⟨0, "chr1", 99, ".", ["A", "C"]⟩], [(5, 0)], ["chr1"]⟩

theorem c8_counterexample :
    parseFragmatFiles vcfShifted ["1 r1 5 0 II"] true =
      Except.ok [("r1", [(0, 0, 'I')])] ∧
    parseFragmatDatagen vcfShifted ["1 r1 5 0 II"] true =
      Except.ok [("r1", [(5, 0, 'I')])] ∧
    parseFragmatFiles vcfShifted ["1 r1 5 0 II"] true ≠
      parseFragmatDatagen vcfShifted ["1 r1 5 0 II"] true := by
  refine ⟨by decide, by decide, by decide⟩

def vcfAligned : VCF := ⟨[⟨0, "chr1", 99, ".", ["A", "C"]⟩], [(0, 0)], ["chr1"]⟩

theorem c8_parse_fragmat_agree_witness :
    (∀ (k : Int) (j : Nat), alookupN vcfAligned.line_to_snp k = some j →
      ∀ snp, vcfAligned.snps.get? j = some snp → snp.id = k) ∧
    parseFragmatFiles vcfAligned ["1 r1 0 0 II"] true =
      parseFragmatDatagen vcfAligned ["1 r1 0 0 II"] true := by
  have hid : ∀ (k : Int) (j : Nat), alookupN vcfAligned.line_to_snp k = some j →
      ∀ snp, vcfAligned.snps.get? j = some snp → snp.id = k := by
    intro k j h snp hsnp
    simp only [vcfAligned] at h hsnp
    rw [show alookupN [((0 : Int), (0 : Nat))] k =
      if (0 : Int) = k then some 0 else none from rfl] at h
    split at h
    · rename_i hk
      injection h with hj
      rw [← hj] at hsnp
      simp only [List.get?] at hsnp
      injection hsnp with hs
      rw [← hs, ← hk]
    · cases h
  exact ⟨hid, c8_parse_fragmat_agree_on_aligned_ids vcfAligned hid ["1 r1 0 0 II"] true⟩

/-! ## C5: `parse_phases` deduplication key -/


/-- First occurrences of `keys` not already in `seen`, in order. -/
def firstKeysExcept (seen : List (List (Int × Int))) :
    List (List (Int × Int)) → List (List (Int × Int))
  | [] => []
  | k :: ks =>
    if k ∈ seen then firstKeysExcept seen ks
    else k :: firstKeysExcept (seen ++ [k]) ks

/-- First occurrences of `keys`, in order. -/
def firstKeys (ks : List (List (Int × Int))) : List (List (Int × Int)) :=
  firstKeysExcept [] ks

lemma firstKeysExcept_cons (seen : List (List (Int × Int)))
    (k : List (Int × Int)) (ks : List (List (Int × Int))) :
    firstKeysExcept seen (k :: ks) =
      if k ∈ seen then firstKeysExcept seen ks
      else k :: firstKeysExcept (seen ++ [k]) ks := rfl

lemma mem_firstKeysExcept_not_seen :
    ∀ (ks seen : List (List (Int × Int))) (k : List (Int × Int)),
      k ∈ firstKeysExcept seen ks → k ∉ seen := by
  intro ks
  induction ks with
  | nil => intro seen k h; simp [firstKeysExcept] at h
  | cons k' ks ih =>
    intro seen k h
    unfold firstKeysExcept at h
    split at h
    · exact ih seen k h
    · rcases List.mem_cons.mp h with rfl | h
      · assumption
      · have := ih (seen ++ [k']) k h
        intro hmem
        exact this (List.mem_append_left _ hmem)

lemma bumpKey_not_mem (ctr : List (List (Int × Int) × Int))
    (k : List (Int × Int)) (h : k ∉ ctr.map Prod.fst) :
    bumpKey ctr k = ctr ++ [(k, 1)] := by
  induction ctr with
  | nil => rfl
  | cons p rest ih =>
    have hne : p.1 ≠ k := by
      intro he
      exact h (by simp [he])
    unfold bumpKey
    rw [if_neg hne]
    rw [ih (by intro hm; exact h (by simp [hm]))]
    rfl

lemma bumpKey_vals_mem (ks : List (List (Int × Int)))
    (k : List (Int × Int)) :
    ∀ (ctr : List (List (Int × Int) × Int)), k ∈ ctr.map Prod.fst →
      (ctr.map Prod.fst).Nodup →
      (bumpKey ctr k).map (fun p => (p.1, p.2 + (ks.count p.1 : Int))) =
        ctr.map (fun p => (p.1, p.2 + (((k :: ks).count p.1 : Nat) : Int))) := by
  intro ctr
  induction ctr with
  | nil => intro h _; simp at h
  | cons p rest ih =>
    intro hmem hnd
    by_cases hk : p.1 = k
    · unfold bumpKey
      rw [if_pos hk]
      simp only [List.map_cons]
      congr 1
      · rw [hk, List.count_cons_self]
        push_cast
        ring_nf
      · have hknotin : k ∉ rest.map Prod.fst := by
          rw [← hk]
          exact (List.nodup_cons.mp (by simpa using hnd)).1
        apply List.map_congr_left
        intro q hq
        have hqne : q.1 ≠ k := by
          intro he
          exact hknotin (he ▸ List.mem_map_of_mem Prod.fst hq)
        rw [List.count_cons_of_ne hqne]
    · unfold bumpKey
      rw [if_neg hk]
      simp only [List.map_cons]
      congr 1
      · rw [List.count_cons_of_ne hk]
      · refine ih ?_ ?_
        · rcases List.mem_map.mp hmem with ⟨q, hq, hq1⟩
          rcases List.mem_cons.mp hq with rfl | hq
          · exact absurd hq1 hk
          · exact hq1 ▸ List.mem_map_of_mem Prod.fst hq
        · exact (List.nodup_cons.mp (by simpa using hnd)).2

lemma bumpKey_map_fst_mem (k : List (Int × Int)) :
    ∀ (ctr : List (List (Int × Int) × Int)), k ∈ ctr.map Prod.fst →
      (bumpKey ctr k).map Prod.fst = ctr.map Prod.fst := by
  intro ctr
  induction ctr with
  | nil => intro h; simp at h
  | cons p rest ih =>
    intro hmem
    by_cases hk : p.1 = k
    · unfold bumpKey
      rw [if_pos hk]
      simp [hk]
    · unfold bumpKey
      rw [if_neg hk]
      simp only [List.map_cons]
      rw [ih ?_]
      rcases List.mem_map.mp hmem with ⟨q, hq, hq1⟩
      rcases List.mem_cons.mp hq with rfl | hq
      · exact absurd hq1 hk
      · exact hq1 ▸ List.mem_map_of_mem Prod.fst hq

lemma bump_foldl (ks : List (List (Int × Int))) :
    ∀ (ctr : List (List (Int × Int) × Int)), (ctr.map Prod.fst).Nodup →
      ks.foldl bumpKey ctr =
        ctr.map (fun p => (p.1, p.2 + ((ks.count p.1 : Nat) : Int))) ++
          (firstKeysExcept (ctr.map Prod.fst) ks).map
            (fun k => (k, ((ks.count k : Nat) : Int))) := by
  induction ks with
  | nil =>
    intro ctr hnd
    simp [firstKeysExcept]
  | cons k ks ih =>
    intro ctr hnd
    rw [List.foldl_cons]
    by_cases hmem : k ∈ ctr.map Prod.fst
    · rw [ih (bumpKey ctr k) (by rw [bumpKey_map_fst_mem k ctr hmem]; exact hnd)]
      rw [bumpKey_map_fst_mem k ctr hmem]
      rw [bumpKey_vals_mem ks k ctr hmem hnd]
      rw [firstKeysExcept_cons, if_pos hmem]
      congr 1
      apply List.map_congr_left
      intro q hq
      have hqk : q ≠ k := by
        intro he
        exact mem_firstKeysExcept_not_seen ks (ctr.map Prod.fst) q hq (he ▸ hmem)
      rw [List.count_cons_of_ne hqk]
    · rw [bumpKey_not_mem ctr k hmem]
      have hnd' : ((ctr ++ [(k, 1)]).map Prod.fst).Nodup := by
        rw [List.map_append]
        refine List.Nodup.append hnd (List.nodup_singleton _) ?_
        intro a ha hb
        simp only [List.map_cons, List.map_nil, List.mem_singleton] at hb
        exact hmem (hb ▸ ha)
      rw [ih (ctr ++ [(k, 1)]) hnd']
      rw [firstKeysExcept_cons, if_neg hmem]
      simp only [List.map_append, List.map_cons, List.map_nil]
      rw [List.append_assoc]
      congr 1
      · apply List.map_congr_left
        intro q hq
        have hqk : q.1 ≠ k := by
          intro he
          exact hmem (he ▸ List.mem_map_of_mem Prod.fst hq)
        rw [List.count_cons_of_ne hqk]
      · simp only [List.singleton_append, List.cons.injEq]
        constructor
        · rw [List.count_cons_self]
          push_cast
          ring_nf
        · apply List.map_congr_left
          intro q hq
          have hqk : q ≠ k := by
            intro he
            have := mem_firstKeysExcept_not_seen ks (ctr.map Prod.fst ++ [k]) q hq
            exact this (by simp [he])
          rw [List.count_cons_of_ne hqk]


/-- C5 amended: deduplication groups by the ORDER-SENSITIVE tuple of
`(snp_id, allele_index)` pairs — the emitted reads are exactly the
first-seen distinct key tuples in order, with the occurrence count of that
exact tuple and sequential ids from 0; in particular the spec's
same-order example collapses to two reads with counts 2 and 1. -/
theorem c5_dedup_by_ordered_key (reads : List (List Obs)) :
    dedupReads reads =
      (firstKeys (reads.map keyOf)).enum.map
        (fun ik => Read.make (dictOfPairs ik.2)
          (((reads.map keyOf).count ik.2 : Nat) : Int) (ik.1 : Int)) ∧
    dedupReads [[(0, 0, 'I'), (1, 1, 'I')], [(0, 0, 'I'), (1, 1, 'I')],
        [(0, 1, 'I'), (1, 0, 'I')]] =
      [Read.make [(0, 0), (1, 1)] 2 0, Read.make [(0, 1), (1, 0)] 1 1] := by
  constructor
  · unfold dedupReads
    rw [← List.foldl_map]
    rw [bump_foldl (reads.map keyOf) [] (by simp)]
    simp only [List.map_nil, List.nil_append]
    rw [List.enum_map, List.map_map]
    rfl
  · rfl

/-- C5 counterexample: two observation lists with the same multiset of
`(snp_id, allele_index)` pairs in different orders do NOT collapse — the
key is order-sensitive, so two distinct reads are emitted. -/
theorem c5_counterexample :
    ((keyOf [(0, 0, 'I'), (1, 1, 'I')] : List (Int × Int)) :
        Multiset (Int × Int)) =
      ((keyOf [(1, 1, 'I'), (0, 0, 'I')] : List (Int × Int)) :
        Multiset (Int × Int)) ∧
    (dedupReads [[(0, 0, 'I'), (1, 1, 'I')], [(1, 1, 'I'), (0, 0, 'I')]]).length
      = 2 := by
  constructor
  · decide
  · rfl

/-! ## C10: `load_dna_data` special SNPs and rates -/


/-- The property "s is the second-smallest element of keys": some strict
minimum m lies below it, and every other element is at or above s. -/
def IsSecondSmallest (s : Int) (keys : List Int) : Prop :=
  ∃ m ∈ keys, s ∈ keys ∧ m < s ∧ (∀ x ∈ keys, m ≤ x) ∧
    ∀ x ∈ keys, x ≠ m → s ≤ x

lemma sortedKeys_second (keys : List Int) (hnd : keys.Nodup)
    (h2 : 2 ≤ keys.length) :
    ∃ s, (List.insertionSort (· ≤ ·) keys).get? 1 = some s ∧
      IsSecondSmallest s keys := by
  have hperm : List.Perm (List.insertionSort (· ≤ ·) keys) keys :=
    List.perm_insertionSort (· ≤ ·) keys
  have hsorted : (List.insertionSort (· ≤ ·) keys).Sorted (· ≤ ·) :=
    List.sorted_insertionSort (· ≤ ·) keys
  have hlen : 2 ≤ (List.insertionSort (· ≤ ·) keys).length := by
    rw [hperm.length_eq]; exact h2
  have hnd' : (List.insertionSort (· ≤ ·) keys).Nodup := hperm.symm.nodup hnd
  obtain ⟨a, b, rest, hl⟩ :
      ∃ a b rest, List.insertionSort (· ≤ ·) keys = a :: b :: rest := by
    cases h1 : List.insertionSort (· ≤ ·) keys with
    | nil => rw [h1] at hlen; simp at hlen
    | cons a tl =>
      cases tl with
      | nil => rw [h1] at hlen; simp at hlen
      | cons b rest => exact ⟨a, b, rest, rfl⟩
  rw [hl] at hperm hsorted hnd'
  rw [hl]
  refine ⟨b, rfl, a, ?_, ?_, ?_, ?_, ?_⟩
  · exact hperm.mem_iff.mp (by simp)
  · exact hperm.mem_iff.mp (by simp)
  · have hab : a ≤ b := (List.pairwise_cons.mp hsorted).1 b (by simp)
    have hne : a ≠ b := by
      intro he
      rw [he] at hnd'
      exact (List.nodup_cons.mp hnd').1 (by simp)
    omega
  · intro x hx
    have hx' : x ∈ a :: b :: rest := hperm.mem_iff.mpr hx
    rcases List.mem_cons.mp hx' with rfl | hx'
    · exact le_refl x
    · exact (List.pairwise_cons.mp hsorted).1 x hx'
  · intro x hx hxa
    have hx' : x ∈ a :: b :: rest := hperm.mem_iff.mpr hx
    rcases List.mem_cons.mp hx' with rfl | hx'
    · exact absurd rfl hxa
    · rcases List.mem_cons.mp hx' with rfl | hx'
      · exact le_refl x
      · exact (List.pairwise_cons.mp (List.pairwise_cons.mp hsorted).2).1 x hx'

lemma setSpecialAndRates_ok (r : Read) (hnd : (dkeys r.snps).Nodup)
    (h2 : 2 ≤ (dkeys r.snps).length) :
    ∃ r', setSpecialAndRates r = Except.ok r' ∧ r'.snps = r.snps ∧
      r'.rates = [0.5, 0.5] ∧
      IsSecondSmallest r'.special_snp (dkeys r'.snps) := by
  rcases sortedKeys_second (dkeys r.snps) hnd h2 with ⟨s, hget, hss⟩
  refine ⟨{ r with special_snp := s, rates := [0.5, 0.5] }, ?_, rfl, rfl, hss⟩
  unfold setSpecialAndRates pyListGet sortedKeys
  rw [hget]
  rfl

lemma setAllSpecial_ok :
    ∀ (reads : List Read),
      (∀ r ∈ reads, (dkeys r.snps).Nodup ∧ 2 ≤ (dkeys r.snps).length) →
      ∃ out, setAllSpecial reads = Except.ok out ∧
        ∀ r' ∈ out, r'.rates = [0.5, 0.5] ∧
          IsSecondSmallest r'.special_snp (dkeys r'.snps) := by
  intro reads
  induction reads with
  | nil => intro _; exact ⟨[], rfl, by simp⟩
  | cons r rs ih =>
    intro hcov
    rcases setSpecialAndRates_ok r (hcov r (by simp)).1 (hcov r (by simp)).2 with
      ⟨r', hok, _, hrates, hss⟩
    rcases ih (fun q hq => hcov q (List.mem_cons_of_mem _ hq)) with
      ⟨out, hout, hprop⟩
    refine ⟨r' :: out, ?_, ?_⟩
    · unfold setAllSpecial
      rw [hok]
      simp only [bind, Except.bind]
      rw [hout]
      rfl
    · intro q hq
      rcases List.mem_cons.mp hq with rfl | hq
      · exact ⟨hrates, hss⟩
      · exact hprop q hq

/-- C10 amended: when every read handed to the special-SNP pass —
including merged RNA reads — covers at least two SNPs, `load_dna_data`
succeeds and every resulting read has `special_snp` equal to the
second-smallest covered SNP id and rates `[0.5, 0.5]`; a read covering a
single SNP instead makes `sorted(r.snps)[1]` raise `IndexError`. -/
theorem c10_load_dna_special_snp (vcf : VCF) (files : List (List String))
    (rna_reads : Option (List Read)) (reads0 : List Read)
    (hparse : parse_phases vcf files true = Except.ok reads0)
    (hcov : ∀ r ∈ reads0 ++ rna_reads.getD [],
      (dkeys r.snps).Nodup ∧ 2 ≤ (dkeys r.snps).length) :
    ∃ out, load_dna_data vcf files rna_reads = Except.ok out ∧
      ∀ r' ∈ out, r'.rates = [0.5, 0.5] ∧
        IsSecondSmallest r'.special_snp (dkeys r'.snps) := by
  rcases setAllSpecial_ok (reads0 ++ rna_reads.getD []) hcov with
    ⟨out, hout, hprop⟩
  refine ⟨out, ?_, hprop⟩
  unfold load_dna_data
  rw [hparse]
  simp only [bind, Except.bind, Option.getD]
  cases rna_reads with
  | none => exact hout
  | some rr => exact hout

/-- C10 counterexample: a merged RNA read covering a single SNP makes
`load_dna_data` raise `IndexError` at `sorted(r.snps)[1]` instead of
producing a read set. -/
theorem c10_counterexample :
    load_dna_data ⟨[], [], []⟩ [] (some [Read.make [(7, 1)] 1 0]) =
      Except.error PyErr.indexError := by
  rfl

/-- Witness for C10 amended: one two-SNP RNA read; its special SNP becomes
7, the second-smallest of {3, 7}. -/
theorem c10_load_dna_special_snp_witness :
    (parse_phases ⟨[], [], []⟩ [] true = Except.ok []) ∧
    (∀ r ∈ ([] : List Read) ++
        (some [Read.make [(7, 1), (3, 0)] 1 0]).getD [],
      (dkeys r.snps).Nodup ∧ 2 ≤ (dkeys r.snps).length) ∧
    (∃ out, load_dna_data ⟨[], [], []⟩ []
        (some [Read.make [(7, 1), (3, 0)] 1 0]) = Except.ok out ∧
      ∀ r' ∈ out, r'.rates = [0.5, 0.5] ∧
        IsSecondSmallest r'.special_snp (dkeys r'.snps)) := by
  have hcov : ∀ r ∈ ([] : List Read) ++
      (some [Read.make [(7, 1), (3, 0)] 1 0]).getD [],
      (dkeys r.snps).Nodup ∧ 2 ≤ (dkeys r.snps).length := by
    intro r hr
    simp only [List.nil_append, Option.getD_some, List.mem_singleton] at hr
    rw [hr]
    exact ⟨by decide, by decide⟩
  exact ⟨rfl, hcov,
    c10_load_dna_special_snp ⟨[], [], []⟩ []
      (some [Read.make [(7, 1), (3, 0)] 1 0]) [] rfl hcov⟩

end HapTreeX
